import Mathlib

/-
Verification of the go-hermes in-memory key/value store.

The Go source is shallowly embedded: the sharded keyspace is modelled as a
single association list from keys to entries (every key lives in exactly one
shard and each operation only consults the shard of its key, so the union of
the shard maps is an equivalent single map for data semantics); `time.Now()`
is an explicit `now : Nat` parameter; a `time.Time` expiration is
`Option Nat` with `none` standing for the zero time ("never expires");
`context.Context` cancellation is a `canceled : Bool` parameter; Go's
`(value, error)` returns become `Except GoError`; a Go runtime panic is
modelled as an `Option`-valued result being `none`.
-/

namespace Hermes

/-- Dynamic values stored in the map (`interface{}` in the source).
Scalars are modelled by `vNull`, `vInt` (int64), `vStr`; list entries carry
`[]interface{}` (`vList`) and hash entries carry `map[string]interface{}`
(`vHash`, as an association list). -/
inductive Value where
  | vNull : Value
  | vInt : Int → Value
  | vStr : String → Value
  | vList : List Value → Value
  | vHash : List (String × Value) → Value

/-- `DataType` from the source: `String`, `List`, `Hash`. -/
inductive DataType where
  | dString : DataType
  | dList : DataType
  | dHash : DataType
  deriving DecidableEq

/-- `Entry` from the source: a value, its kind tag and an expiration
(`none` = the zero `time.Time`, i.e. no expiration). -/
structure Entry where
  value : Value
  type : DataType
  expiration : Option Nat

/-- The error values declared in the source (`errors.New` sentinels), plus
`transactionFailed` which wraps its cause (`fmt.Errorf("%w: %v", ...)`). -/
inductive GoError where
  | keyNotFound : GoError
  | keyExpired : GoError
  | keyExists : GoError
  | invalidType : GoError
  | invalidValueType : GoError
  | valueMismatch : GoError
  | invalidTTL : GoError
  | emptyList : GoError
  | emptyValues : GoError
  | invalidKey : GoError
  | transactionNotActive : GoError
  | contextCanceled : GoError
  | transactionFailed : GoError → GoError
  deriving DecidableEq

/-- Association-list lookup, modelling Go map indexing `m[k]`. -/
def alookup {κ α : Type} [DecidableEq κ] : List (κ × α) → κ → Option α
  | [], _ => none
  | (k', v) :: rest, k => if k = k' then some v else alookup rest k

/-- Association-list update, modelling Go map assignment `m[k] = v`. -/
def ainsert {κ α : Type} [DecidableEq κ] : List (κ × α) → κ → α → List (κ × α)
  | [], k, v => [(k, v)]
  | (k', v') :: rest, k, v =>
      if k = k' then (k, v) :: rest else (k', v') :: ainsert rest k v

/-- Association-list removal, modelling Go `delete(m, k)`. -/
def aerase {κ α : Type} [DecidableEq κ] : List (κ × α) → κ → List (κ × α)
  | [], _ => []
  | (k', v') :: rest, k =>
      if k = k' then aerase rest k else (k', v') :: aerase rest k

/-- The whole keyspace (union of all shard maps). -/
abbrev Store := List (String × Entry)

/-- `isExpired` from the source: a zero expiration never expires; otherwise
expired iff `time.Now().After(e.Expiration)`, i.e. strictly past it. -/
def isExpired (e : Entry) (now : Nat) : Bool :=
  match e.expiration with
  | none => false
  | some t => t < now

/-- `ttlSecondsToTime` from the source: negative TTL is `ErrInvalidTTL`,
zero TTL means no expiration, positive TTL expires at `now + ttl`. -/
def ttlSecondsToTime (now : Nat) (ttl : Int) : Except GoError (Option Nat) :=
  if ttl < 0 then .error .invalidTTL
  else if ttl = 0 then .ok none
  else .ok (some (now + ttl.toNat))

/-- A published notification: (topic, message). -/
abbrev Pub := String × String

/-- Result of one store operation: the Go return value (errors via `Except`),
the keyspace afterwards, and the notifications published, in order. -/
structure OpResult (α : Type) where
  ret : Except GoError α
  store : Store
  pubs : List Pub

/-- Crude rendering of `fmt.Sprintf("%v", value)`; no claim depends on the
rendered text of container values, so those are abbreviated. -/
def fmtValue : Value → String
  | .vNull => "<nil>"
  | .vInt n => toString n
  | .vStr s => s
  | .vList _ => "[...]"
  | .vHash _ => "map[...]"

namespace DB

/-- `setInternal` from the source. Checks cancellation, empty key and TTL;
then gates on bare slot existence (`_, exists := sh.data[key]` — expiry is
NOT consulted): XX fails `KeyNotFound` when absent, NX fails `KeyExists`
when present; otherwise stores a STRING entry and publishes `SET: <v>`.
The Go pair `(bool, error)` is `Except GoError Bool`: every error return
carries `false`, every success carries `true`. -/
def setInternal (canceled : Bool) (key : String) (value : Value) (ttl : Int)
    (ifExists ifNotExists : Bool) (now : Nat) (s : Store) : OpResult Bool :=
  if canceled then ⟨.error .contextCanceled, s, []⟩
  else if key = "" then ⟨.error .invalidKey, s, []⟩
  else
    match ttlSecondsToTime now ttl with
    | .error e => ⟨.error e, s, []⟩
    | .ok expiration =>
      let present := (alookup s key).isSome
      if ifExists && !present then ⟨.error .keyNotFound, s, []⟩
      else if ifNotExists && present then ⟨.error .keyExists, s, []⟩
      else ⟨.ok true, ainsert s key ⟨value, .dString, expiration⟩,
            [(key, "SET: " ++ fmtValue value)]⟩

/-- `DB.Set` from the source: `setInternal` with both flags off. -/
def Set (canceled : Bool) (key : String) (value : Value) (ttl : Int)
    (now : Nat) (s : Store) : OpResult Bool :=
  setInternal canceled key value ttl false false now s

/-- `DB.SetNX` from the source: `setInternal` with `ifNotExists`. -/
def SetNX (canceled : Bool) (key : String) (value : Value) (ttl : Int)
    (now : Nat) (s : Store) : OpResult Bool :=
  setInternal canceled key value ttl false true now s

/-- `DB.SetXX` from the source: `setInternal` with `ifExists`. -/
def SetXX (canceled : Bool) (key : String) (value : Value) (ttl : Int)
    (now : Nat) (s : Store) : OpResult Bool :=
  setInternal canceled key value ttl true false now s

/-- `DB.Get` from the source: absent slot is `ErrKeyNotFound`; a present but
expired slot is lazily deleted (under the write lock) and reported as
`ErrKeyExpired`; otherwise the stored value is returned. -/
def Get (canceled : Bool) (key : String) (now : Nat) (s : Store) :
    OpResult Value :=
  if canceled then ⟨.error .contextCanceled, s, []⟩
  else
    match alookup s key with
    | none => ⟨.error .keyNotFound, s, []⟩
    | some e =>
      if isExpired e now then ⟨.error .keyExpired, aerase s key, []⟩
      else ⟨.ok e.value, s, []⟩

/-- `DB.Exists` from the source: `true` iff a slot exists and is not
expired; never an error apart from cancellation. -/
def Exists (canceled : Bool) (key : String) (now : Nat) (s : Store) :
    OpResult Bool :=
  if canceled then ⟨.error .contextCanceled, s, []⟩
  else
    match alookup s key with
    | none => ⟨.ok false, s, []⟩
    | some e =>
      if isExpired e now then ⟨.ok false, s, []⟩
      else ⟨.ok true, s, []⟩

/-- Go interface equality `entry.Value != oldValue` as `SetCAS` performs it:
scalars of the same dynamic type compare by value, different dynamic types
are unequal, and comparing two slices or two maps (identical non-comparable
dynamic types) is a runtime panic, modelled as `none`. -/
def goValueEq : Value → Value → Option Bool
  | .vNull, .vNull => some true
  | .vInt a, .vInt b => some (a = b)
  | .vStr a, .vStr b => some (a = b)
  | .vList _, .vList _ => none
  | .vHash _, .vHash _ => none
  | _, _ => some false

/-- `DB.SetCAS` from the source. Absent or expired (the expired slot is
deleted) fails `KeyNotFound`; a payload mismatch fails `ValueMismatch`;
otherwise the payload is replaced, the `kind` is preserved, the new TTL is
installed and `CAS: old -> new` is published. `none` is the interface
comparison panicking. -/
def SetCAS (canceled : Bool) (key : String) (oldValue newValue : Value)
    (ttl : Int) (now : Nat) (s : Store) : Option (OpResult Unit) :=
  if canceled then some ⟨.error .contextCanceled, s, []⟩
  else
    match ttlSecondsToTime now ttl with
    | .error e => some ⟨.error e, s, []⟩
    | .ok expiration =>
      match alookup s key with
      | none => some ⟨.error .keyNotFound, s, []⟩
      | some e =>
        if isExpired e now then some ⟨.error .keyNotFound, aerase s key, []⟩
        else
          match goValueEq e.value oldValue with
          | none => none
          | some false => some ⟨.error .valueMismatch, s, []⟩
          | some true =>
            some ⟨.ok (), ainsert s key ⟨newValue, e.type, expiration⟩,
                  [(key, "CAS: " ++ fmtValue oldValue ++ " -> " ++
                         fmtValue newValue)]⟩

/-- `DB.GetSet` from the source: deletes an expired slot, returns the old
value (`none` when absent), stores the new value as a STRING with the new
TTL and publishes `GETSET`. -/
def GetSet (canceled : Bool) (key : String) (newValue : Value) (ttl : Int)
    (now : Nat) (s : Store) : OpResult (Option Value) :=
  if canceled then ⟨.error .contextCanceled, s, []⟩
  else
    match ttlSecondsToTime now ttl with
    | .error e => ⟨.error e, s, []⟩
    | .ok expiration =>
      let found := alookup s key
      let cleaned := match found with
        | some e => if isExpired e now then aerase s key else s
        | none => s
      let oldValue : Option Value := match found with
        | some e => if isExpired e now then none else some e.value
        | none => none
      ⟨.ok oldValue, ainsert cleaned key ⟨newValue, .dString, expiration⟩,
       [(key, "GETSET: " ++ (match oldValue with
          | some v => fmtValue v
          | none => "<nil>") ++ " -> " ++ fmtValue newValue)]⟩

/-- `DB.Incr` from the source: absent or expired creates a STRING entry with
payload `int64(1)`; a non-int64 payload is `ErrInvalidValueType`; otherwise
the counter is bumped in place (kind and expiration preserved). -/
def Incr (canceled : Bool) (key : String) (now : Nat) (s : Store) :
    OpResult Int :=
  if canceled then ⟨.error .contextCanceled, s, []⟩
  else
    match alookup s key with
    | none => ⟨.ok 1, ainsert s key ⟨.vInt 1, .dString, none⟩, []⟩
    | some e =>
      if isExpired e now then
        ⟨.ok 1, ainsert s key ⟨.vInt 1, .dString, none⟩, []⟩
      else
        match e.value with
        | .vInt v =>
          ⟨.ok (v + 1), ainsert s key ⟨.vInt (v + 1), e.type, e.expiration⟩, []⟩
        | _ => ⟨.error .invalidValueType, s, []⟩

/-- `DB.Decr` from the source, symmetric to `Incr` with `-1`. -/
def Decr (canceled : Bool) (key : String) (now : Nat) (s : Store) :
    OpResult Int :=
  if canceled then ⟨.error .contextCanceled, s, []⟩
  else
    match alookup s key with
    | none => ⟨.ok (-1), ainsert s key ⟨.vInt (-1), .dString, none⟩, []⟩
    | some e =>
      if isExpired e now then
        ⟨.ok (-1), ainsert s key ⟨.vInt (-1), .dString, none⟩, []⟩
      else
        match e.value with
        | .vInt v =>
          ⟨.ok (v - 1), ainsert s key ⟨.vInt (v - 1), e.type, e.expiration⟩, []⟩
        | _ => ⟨.error .invalidValueType, s, []⟩

/-- `DB.IncrBy` from the source: absent or expired creates a STRING entry
with the delta; a non-STRING kind is `ErrInvalidType`, a non-int64 payload
`ErrInvalidValueType`; otherwise adds the delta in place. -/
def IncrBy (canceled : Bool) (key : String) (increment : Int) (now : Nat)
    (s : Store) : OpResult Int :=
  if canceled then ⟨.error .contextCanceled, s, []⟩
  else
    match alookup s key with
    | none => ⟨.ok increment, ainsert s key ⟨.vInt increment, .dString, none⟩, []⟩
    | some e =>
      if isExpired e now then
        ⟨.ok increment, ainsert s key ⟨.vInt increment, .dString, none⟩, []⟩
      else if e.type ≠ .dString then ⟨.error .invalidType, s, []⟩
      else
        match e.value with
        | .vInt v =>
          ⟨.ok (v + increment),
           ainsert s key ⟨.vInt (v + increment), e.type, e.expiration⟩, []⟩
        | _ => ⟨.error .invalidValueType, s, []⟩

/-- `DB.DecrBy` from the source: `IncrBy` with the negated delta. -/
def DecrBy (canceled : Bool) (key : String) (decrement : Int) (now : Nat)
    (s : Store) : OpResult Int :=
  IncrBy canceled key (-decrement) now s

/-- `DB.LPush` from the source: rejects empty keys and empty value vectors;
deletes an expired slot first; prepends the reversed argument vector to the
list (creating a LIST entry with no expiration when absent); a non-list
slot is `ErrInvalidType`. Publishes `LPush: <values>`. -/
def LPush (canceled : Bool) (key : String) (values : List Value) (now : Nat)
    (s : Store) : OpResult Unit :=
  if canceled then ⟨.error .contextCanceled, s, []⟩
  else if key = "" then ⟨.error .invalidKey, s, []⟩
  else if values.isEmpty then ⟨.error .emptyValues, s, []⟩
  else
    match alookup s key with
    | some e =>
      if isExpired e now then
        ⟨.ok (), ainsert (aerase s key) key ⟨.vList values.reverse, .dList, none⟩,
         [(key, "LPush: [...]")]⟩
      else if e.type ≠ .dList then ⟨.error .invalidType, s, []⟩
      else
        match e.value with
        | .vList l =>
          ⟨.ok (),
           ainsert s key ⟨.vList (values.reverse ++ l), e.type, e.expiration⟩,
           [(key, "LPush: [...]")]⟩
        | _ => ⟨.error .invalidType, s, []⟩
    | none =>
      ⟨.ok (), ainsert s key ⟨.vList values.reverse, .dList, none⟩,
       [(key, "LPush: [...]")]⟩

/-- `DB.RPush` from the source: no empty-key check (unlike `LPush`);
rejects empty value vectors; deletes an expired slot first; appends the
argument vector in order. Publishes `RPush: <values>`. -/
def RPush (canceled : Bool) (key : String) (values : List Value) (now : Nat)
    (s : Store) : OpResult Unit :=
  if canceled then ⟨.error .contextCanceled, s, []⟩
  else if values.isEmpty then ⟨.error .emptyValues, s, []⟩
  else
    match alookup s key with
    | some e =>
      if isExpired e now then
        ⟨.ok (), ainsert (aerase s key) key ⟨.vList values, .dList, none⟩,
         [(key, "RPush: [...]")]⟩
      else if e.type ≠ .dList then ⟨.error .invalidType, s, []⟩
      else
        match e.value with
        | .vList l =>
          ⟨.ok (), ainsert s key ⟨.vList (l ++ values), e.type, e.expiration⟩,
           [(key, "RPush: [...]")]⟩
        | _ => ⟨.error .invalidType, s, []⟩
    | none =>
      ⟨.ok (), ainsert s key ⟨.vList values, .dList, none⟩,
       [(key, "RPush: [...]")]⟩

/-- `DB.LPop` from the source: absent or expired (not deleted here) is
`ErrKeyNotFound`; wrong kind is `ErrInvalidType`; an empty or ill-typed
list payload is `ErrEmptyList`; otherwise removes the head, deleting the
key entirely when the list becomes empty. -/
def LPop (canceled : Bool) (key : String) (now : Nat) (s : Store) :
    OpResult Value :=
  if canceled then ⟨.error .contextCanceled, s, []⟩
  else
    match alookup s key with
    | none => ⟨.error .keyNotFound, s, []⟩
    | some e =>
      if isExpired e now then ⟨.error .keyNotFound, s, []⟩
      else if e.type ≠ .dList then ⟨.error .invalidType, s, []⟩
      else
        match e.value with
        | .vList [] => ⟨.error .emptyList, s, []⟩
        | .vList (v :: rest) =>
          if rest.isEmpty then ⟨.ok v, aerase s key, []⟩
          else ⟨.ok v, ainsert s key ⟨.vList rest, e.type, e.expiration⟩, []⟩
        | _ => ⟨.error .emptyList, s, []⟩

/-- `DB.RPop` from the source, symmetric to `LPop` on the tail. -/
def RPop (canceled : Bool) (key : String) (now : Nat) (s : Store) :
    OpResult Value :=
  if canceled then ⟨.error .contextCanceled, s, []⟩
  else
    match alookup s key with
    | none => ⟨.error .keyNotFound, s, []⟩
    | some e =>
      if isExpired e now then ⟨.error .keyNotFound, s, []⟩
      else if e.type ≠ .dList then ⟨.error .invalidType, s, []⟩
      else
        match e.value with
        | .vList l =>
          match l.getLast? with
          | none => ⟨.error .emptyList, s, []⟩
          | some v =>
            if l.dropLast.isEmpty then ⟨.ok v, aerase s key, []⟩
            else
              ⟨.ok v, ainsert s key ⟨.vList l.dropLast, e.type, e.expiration⟩, []⟩
        | _ => ⟨.error .emptyList, s, []⟩

/-- `DB.LRange` from the source: negative indices count from the end,
`start` is clamped below to `0`, `end` above to `len-1`; `start > end` or
`start ≥ len` yields the empty sequence, else `list[start : end+1]`. -/
def LRange (canceled : Bool) (key : String) (start endIdx : Int) (now : Nat)
    (s : Store) : OpResult (List Value) :=
  if canceled then ⟨.error .contextCanceled, s, []⟩
  else
    match alookup s key with
    | none => ⟨.error .keyNotFound, s, []⟩
    | some e =>
      if isExpired e now then ⟨.error .keyNotFound, s, []⟩
      else if e.type ≠ .dList then ⟨.error .invalidType, s, []⟩
      else
        match e.value with
        | .vList l =>
          let length : Int := l.length
          let start1 := if start < 0 then length + start else start
          let end1 := if endIdx < 0 then length + endIdx else endIdx
          let start2 := if start1 < 0 then 0 else start1
          let end2 := if end1 ≥ length then length - 1 else end1
          if start2 > end2 ∨ start2 ≥ length then ⟨.ok [], s, []⟩
          else
            ⟨.ok ((l.drop start2.toNat).take (end2 + 1 - start2).toNat), s, []⟩
        | _ => ⟨.error .invalidType, s, []⟩

/-- `DB.HSet` from the source: deletes an expired slot; creates the hash
when absent; a present non-hash slot is `ErrInvalidType`; for a present
hash, `ttl == 0` preserves the existing expiration while any positive TTL
resets it; then assigns the field and stores a HASH entry. `none` is the
unchecked `entry.Value.(map[string]interface{})` assertion panicking. -/
def HSet (canceled : Bool) (key field : String) (value : Value) (ttl : Int)
    (now : Nat) (s : Store) : Option (OpResult Unit) :=
  if canceled then some ⟨.error .contextCanceled, s, []⟩
  else
    match ttlSecondsToTime now ttl with
    | .error e => some ⟨.error e, s, []⟩
    | .ok expiration =>
      match alookup s key with
      | none =>
        some ⟨.ok (),
              ainsert s key ⟨.vHash (ainsert [] field value), .dHash, expiration⟩,
              []⟩
      | some e =>
        if isExpired e now then
          some ⟨.ok (),
                ainsert (aerase s key) key
                  ⟨.vHash (ainsert [] field value), .dHash, expiration⟩,
                []⟩
        else if e.type ≠ .dHash then some ⟨.error .invalidType, s, []⟩
        else
          let expiration2 := if ttl = 0 then e.expiration else expiration
          match e.value with
          | .vHash h =>
            some ⟨.ok (),
                  ainsert s key ⟨.vHash (ainsert h field value), .dHash, expiration2⟩,
                  []⟩
          | _ => none

/-- `DB.HDel` from the source: absent or expired is `ErrKeyNotFound`; a
non-hash slot is `ErrInvalidType`; removes the field and deletes the whole
key when the hash becomes empty. `none` is the unchecked map assertion
panicking. -/
def HDel (canceled : Bool) (key field : String) (now : Nat) (s : Store) :
    Option (OpResult Unit) :=
  if canceled then some ⟨.error .contextCanceled, s, []⟩
  else
    match alookup s key with
    | none => some ⟨.error .keyNotFound, s, []⟩
    | some e =>
      if isExpired e now then some ⟨.error .keyNotFound, s, []⟩
      else if e.type ≠ .dHash then some ⟨.error .invalidType, s, []⟩
      else
        match e.value with
        | .vHash h =>
          let h' := aerase h field
          if h'.isEmpty then some ⟨.ok (), aerase s key, []⟩
          else some ⟨.ok (), ainsert s key ⟨.vHash h', e.type, e.expiration⟩, []⟩
        | _ => none

/-- `DB.Expire` from the source: absent or expired returns `(false, nil)`;
otherwise installs the new expiration and returns `(true, nil)`. -/
def Expire (canceled : Bool) (key : String) (ttl : Int) (now : Nat)
    (s : Store) : OpResult Bool :=
  if canceled then ⟨.error .contextCanceled, s, []⟩
  else
    match ttlSecondsToTime now ttl with
    | .error e => ⟨.error e, s, []⟩
    | .ok expiration =>
      match alookup s key with
      | none => ⟨.ok false, s, []⟩
      | some e =>
        if isExpired e now then ⟨.ok false, s, []⟩
        else ⟨.ok true, ainsert s key ⟨e.value, e.type, expiration⟩, []⟩

/-- `DB.Persist` from the source: clears a finite expiration of a present
non-expired entry; returns `false` otherwise. -/
def Persist (canceled : Bool) (key : String) (now : Nat) (s : Store) :
    OpResult Bool :=
  if canceled then ⟨.error .contextCanceled, s, []⟩
  else
    match alookup s key with
    | none => ⟨.ok false, s, []⟩
    | some e =>
      if isExpired e now then ⟨.ok false, s, []⟩
      else
        match e.expiration with
        | none => ⟨.ok false, s, []⟩
        | some _ => ⟨.ok true, ainsert s key ⟨e.value, e.type, none⟩, []⟩

/-- `DB.Delete` from the source: an absent slot is `ErrKeyNotFound` (expiry
is not consulted); otherwise deletes and publishes `DELETE`. -/
def Delete (canceled : Bool) (key : String) (s : Store) : OpResult Unit :=
  if canceled then ⟨.error .contextCanceled, s, []⟩
  else
    match alookup s key with
    | none => ⟨.error .keyNotFound, s, []⟩
    | some _ => ⟨.ok (), aerase s key, [(key, "DELETE")]⟩

/-- `DB.DropAll` from the source: removes every key and publishes
`FLUSH_ALL` per removed key. -/
def DropAll (canceled : Bool) (s : Store) : OpResult Unit :=
  if canceled then ⟨.error .contextCanceled, s, []⟩
  else ⟨.ok (), [], s.map (fun kv => (kv.1, "FLUSH_ALL"))⟩

/-- `DB.Rename` from the source: empty keys are `ErrInvalidKey`; identical
keys are a no-op success; an absent or expired source is `ErrKeyNotFound`;
a bare slot at the target (`_, conflict := newShard.data[newKey]`, expiry
NOT consulted) is `ErrKeyExists`; otherwise the entry is stored unchanged
at the new key, the old key deleted, and `RENAMED` / `CREATED (via rename)`
published. Same- and cross-shard branches have the same data effect. -/
def Rename (canceled : Bool) (oldKey newKey : String) (now : Nat)
    (s : Store) : OpResult Unit :=
  if canceled then ⟨.error .contextCanceled, s, []⟩
  else if oldKey = "" ∨ newKey = "" then ⟨.error .invalidKey, s, []⟩
  else if oldKey = newKey then ⟨.ok (), s, []⟩
  else
    match alookup s oldKey with
    | none => ⟨.error .keyNotFound, s, []⟩
    | some e =>
      if isExpired e now then ⟨.error .keyNotFound, s, []⟩
      else
        match alookup s newKey with
        | some _ => ⟨.error .keyExists, s, []⟩
        | none =>
          ⟨.ok (), aerase (ainsert s newKey e) oldKey,
           [(oldKey, "RENAMED"), (newKey, "CREATED (via rename)")]⟩

/-- One key's deletion step of `processShard` (the reaper): a candidate key
is re-checked under the exclusive lock and deleted only if still expired,
publishing `EXPIRED`. -/
def reapKey (key : String) (now : Nat) (s : Store) : Store :=
  match alookup s key with
  | some e => if isExpired e now then aerase s key else s
  | none => s

/-- Modelled from the spec: `GetRawEntry` — its implementation is not among
the provided sources (only its documentation and its transaction-layer
callers are). Per §4.3 it reads the raw Entry; per §3 a read path treats an
expired entry as absent, and the transaction layer distinguishes
`KeyNotFound` from `KeyExpired`, so an absent slot is `KeyNotFound` and an
expired one `KeyExpired`. -/
def GetRawEntry (canceled : Bool) (key : String) (now : Nat) (s : Store) :
    Except GoError Entry :=
  if canceled then .error .contextCanceled
  else
    match alookup s key with
    | none => .error .keyNotFound
    | some e => if isExpired e now then .error .keyExpired else .ok e

/-- Modelled from the spec: `RestoreRawEntry` — its implementation is not
among the provided sources. Per §4.3 it "unconditionally overwrites" the
raw entry for the key. -/
def RestoreRawEntry (canceled : Bool) (key : String) (e : Entry) (s : Store) :
    Except GoError Unit × Store :=
  if canceled then (.error .contextCanceled, s)
  else (.ok (), ainsert s key e)

end DB

/-- The `LRange` index arithmetic exactly as claim C6 words it: map a
negative `start`/`end` to `len + index`, clamp `start` below to `0` and
`end` above to `len - 1`, return the empty sequence when `start > end` or
`start ≥ len`, else the elements `list[start..=end]` in order. Stated
separately from `DB.LRange` so the code can be proved to refine it. -/
def lrangeClaim (l : List Value) (start endIdx : Int) : List Value :=
  let len : Int := l.length
  let start1 := if start < 0 then len + start else start
  let end1 := if endIdx < 0 then len + endIdx else endIdx
  let start2 := if start1 < 0 then 0 else start1
  let end2 := if end1 ≥ len then len - 1 else end1
  if start2 > end2 ∨ start2 ≥ len then []
  else (l.drop start2.toNat).take (end2 + 1 - start2).toNat

/- ----------------------------------------------------------------------
Notification bus (internal/pubsub/pubsub.go).

A Go channel is modelled by an identifier (`Nat`, handed out by
`Subscribe`) together with a `SinkState` recording its buffered messages
and whether it has been closed. Closing an already-closed channel and
sending on a closed channel are runtime panics, modelled as `none`.
---------------------------------------------------------------------- -/

/-- The state of one subscriber channel: pending messages (FIFO, capacity
`bufferSize`) and whether the channel has been closed. -/
structure SinkState where
  buf : List String
  closed : Bool

/-- `PubSub` from the source: topic → registered sink ids, plus the state
of every channel ever created by `Subscribe`, the configured buffer
capacity and the next fresh channel id. -/
structure PubSub where
  subscribers : List (String × List Nat)
  sinks : List (Nat × SinkState)
  bufferSize : Nat
  nextId : Nat

namespace PS

/-- `NewPubSub` from the source: buffer size defaults to 10000 unless the
configured size is positive. -/
def NewPubSub (configBufferSize : Int) : PubSub :=
  ⟨[], [], if 0 < configBufferSize then configBufferSize.toNat else 10000, 0⟩

/-- `Subscribe` from the source: creates a fresh buffered channel and
registers it under the topic; returns the new state and the channel. -/
def Subscribe (ps : PubSub) (key : String) : PubSub × Nat :=
  let ch := ps.nextId
  let ids := (alookup ps.subscribers key).getD []
  (⟨ainsert ps.subscribers key (ids ++ [ch]),
    ainsert ps.sinks ch ⟨[], false⟩, ps.bufferSize, ps.nextId + 1⟩, ch)

/-- `close(ch)` on a modelled channel: panics (`none`) when the channel is
already closed. Channels not created by `Subscribe` are outside the model. -/
def closeSink (ps : PubSub) (ch : Nat) : Option PubSub :=
  match alookup ps.sinks ch with
  | some st =>
    if st.closed then none
    else some ⟨ps.subscribers, ainsert ps.sinks ch ⟨st.buf, true⟩,
               ps.bufferSize, ps.nextId⟩
  | none => none

/-- `Unsubscribe` from the source: removes the channel from the topic's set
(dropping the topic when the set empties) — but only when it was actually
registered there — and then closes the channel unconditionally, outside
that conditional. -/
def Unsubscribe (ps : PubSub) (key : String) (ch : Nat) : Option PubSub :=
  let subs :=
    match alookup ps.subscribers key with
    | some ids =>
      if ch ∈ ids then
        let ids' := ids.filter (fun i => i ≠ ch)
        if ids'.isEmpty then aerase ps.subscribers key
        else ainsert ps.subscribers key ids'
      else ps.subscribers
    | none => ps.subscribers
  closeSink ⟨subs, ps.sinks, ps.bufferSize, ps.nextId⟩ ch

/-- The non-blocking `select { case ch <- message: default: }` send: on a
closed channel the send case is chosen and panics (`none`); with a full
buffer the default branch silently drops; otherwise the message is
enqueued. -/
def trySend (ps : PubSub) (ch : Nat) (msg : String) : Option PubSub :=
  match alookup ps.sinks ch with
  | none => none
  | some st =>
    if st.closed then none
    else if st.buf.length < ps.bufferSize then
      some ⟨ps.subscribers, ainsert ps.sinks ch ⟨st.buf ++ [msg], false⟩,
            ps.bufferSize, ps.nextId⟩
    else some ps

/-- The `for ch := range subscribers` loop of `Publish`: one non-blocking
send per registered sink; a panicking send (`none`) aborts the loop. -/
def publishLoop (msg : String) : List Nat → PubSub → Option PubSub
  | [], acc => some acc
  | ch :: ids, acc =>
    match trySend acc ch msg with
    | none => none
    | some acc' => publishLoop msg ids acc'

/-- `Publish` from the source: snapshot the topic's sink set, then attempt
a non-blocking send to each registered sink. -/
def Publish (ps : PubSub) (key msg : String) : Option PubSub :=
  match alookup ps.subscribers key with
  | none => some ps
  | some ids => publishLoop msg ids ps

/-- The per-sink effect of one non-blocking send: append when there is
room, drop when the buffer is full. -/
def sendUpd (bufferSize : Nat) (st : SinkState) (msg : String) : SinkState :=
  if st.buf.length < bufferSize then ⟨st.buf ++ [msg], st.closed⟩ else st

end PS

/- ----------------------------------------------------------------------
Transaction layer (transaction.go).

The recorded command and rollback closures are deeply embedded as data;
`Commit` replays the commands in insertion order and, on the first error,
replays every recorded rollback in reverse order.
---------------------------------------------------------------------- -/

/-- A recorded transaction command (the closure appended to `t.commands`). -/
inductive TxCmd where
  | cmdSet : String → Value → Int → TxCmd
  | cmdSetNX : String → Value → Int → TxCmd

/-- A recorded compensating action (the closure appended to `t.rollback`):
restore the snapshotted entry when the key existed, delete it when not. -/
inductive TxRb where
  | rbRestore : String → Entry → TxRb
  | rbDelete : String → TxRb

/-- `Transaction` from the source: deferred commands, the parallel rollback
stack and the `active` flag. `NewTransaction` plus `begin` yield
`⟨[], [], true⟩`. -/
structure Transaction where
  commands : List TxCmd
  rollback : List TxRb
  active : Bool

namespace Tx

/-- `getRawEntryOrNil` from the source: `KeyNotFound` and `KeyExpired`
collapse to "did not exist"; other errors propagate. -/
def getRawEntryOrNil (canceled : Bool) (key : String) (now : Nat)
    (s : Store) : Except GoError (Option Entry) :=
  match DB.GetRawEntry canceled key now s with
  | .ok e => .ok (some e)
  | .error e =>
    if e = .keyNotFound ∨ e = .keyExpired then .ok none else .error e

/-- `Transaction.Set` from the source: when active, snapshots the key via
`getRawEntryOrNil` and records the deferred `Set` plus its compensation. -/
def SetTx (canceled : Bool) (tx : Transaction) (key : String) (v : Value)
    (ttl : Int) (now : Nat) (s : Store) : Except GoError Unit × Transaction :=
  if !tx.active then (.error .transactionNotActive, tx)
  else
    match getRawEntryOrNil canceled key now s with
    | .error e => (.error e, tx)
    | .ok (some old) =>
      (.ok (), ⟨tx.commands ++ [.cmdSet key v ttl],
                tx.rollback ++ [.rbRestore key old], tx.active⟩)
    | .ok none =>
      (.ok (), ⟨tx.commands ++ [.cmdSet key v ttl],
                tx.rollback ++ [.rbDelete key], tx.active⟩)

/-- `Transaction.SetNX` from the source: records the deferred `SetNX` (whose
error, if any, surfaces only at commit) plus its compensation. -/
def SetNXTx (canceled : Bool) (tx : Transaction) (key : String) (v : Value)
    (ttl : Int) (now : Nat) (s : Store) : Except GoError Unit × Transaction :=
  if !tx.active then (.error .transactionNotActive, tx)
  else
    match getRawEntryOrNil canceled key now s with
    | .error e => (.error e, tx)
    | .ok (some old) =>
      (.ok (), ⟨tx.commands ++ [.cmdSetNX key v ttl],
                tx.rollback ++ [.rbRestore key old], tx.active⟩)
    | .ok none =>
      (.ok (), ⟨tx.commands ++ [.cmdSetNX key v ttl],
                tx.rollback ++ [.rbDelete key], tx.active⟩)

/-- Replaying one recorded command against the live store at commit time. -/
def execCmd (now : Nat) (s : Store) : TxCmd → Except GoError Unit × Store
  | .cmdSet key v ttl =>
    let r := DB.Set false key v ttl now s
    (r.ret.map (fun _ => ()), r.store)
  | .cmdSetNX key v ttl =>
    let r := DB.SetNX false key v ttl now s
    (r.ret.map (fun _ => ()), r.store)

/-- Replaying one recorded rollback (its returned error is discarded, as in
the source's `_ = t.db.Delete(...)`). -/
def execRb (s : Store) : TxRb → Store
  | .rbRestore key e => (DB.RestoreRawEntry false key e s).2
  | .rbDelete key => (DB.Delete false key s).store

/-- `rollbackCommands` from the source: run every recorded rollback in
reverse order. -/
def rollbackCommands (rbs : List TxRb) (s : Store) : Store :=
  rbs.reverse.foldl (fun st rb => execRb st rb) s

/-- The command loop of `Commit`: run commands in insertion order; on the
first error run all recorded rollbacks in reverse, and return
`TransactionFailed` wrapping the cause. -/
def runCmds (now : Nat) (rbs : List TxRb) :
    List TxCmd → Store → Except GoError Unit × Store
  | [], s => (.ok (), s)
  | c :: rest, s =>
    match execCmd now s c with
    | (.ok _, s') => runCmds now rbs rest s'
    | (.error e, s') => (.error (.transactionFailed e), rollbackCommands rbs s')

/-- `Transaction.Commit` from the source: fails `TransactionNotActive` on a
finalized transaction (without clearing); otherwise replays the commands
and always clears the state (the deferred `t.clear()`), leaving the
transaction inactive. -/
def Commit (now : Nat) (tx : Transaction) (s : Store) :
    Except GoError Unit × Transaction × Store :=
  if !tx.active then (.error .transactionNotActive, tx, s)
  else
    let r := runCmds now tx.rollback tx.commands s
    (r.1, ⟨[], [], false⟩, r.2)

end Tx

/- ----------------------------------------------------------------------
Reachable store states (for the empty-container invariant, claim C4).
---------------------------------------------------------------------- -/

/-- Well-formedness of one entry: a LIST entry carries a non-empty list
payload and a HASH entry a non-empty hash payload. -/
def WfEntry (e : Entry) : Prop :=
  (e.type = .dList → ∃ l, e.value = .vList l ∧ l ≠ []) ∧
  (e.type = .dHash → ∃ h, e.value = .vHash h ∧ h ≠ [])

/-- No key of the store holds a LIST or HASH entry with an empty (or
ill-typed) container. -/
def Wf (s : Store) : Prop := ∀ k e, alookup s k = some e → WfEntry e

/-- One mutation of the keyspace by a public store operation of store.go
(read-only operations leave the keyspace unchanged and are omitted; `Get`
appears because of its lazy deletion; `reap` is the reaper's per-key
deletion). Each step carries its own clock value and cancellation flag. -/
inductive Step : Store → Store → Prop where
  | setLike : ∀ c k v ttl ie ine now s,
      Step s (DB.setInternal c k v ttl ie ine now s).store
  | setCAS : ∀ c k ov nv ttl now s r, DB.SetCAS c k ov nv ttl now s = some r →
      Step s r.store
  | getSet : ∀ c k v ttl now s, Step s (DB.GetSet c k v ttl now s).store
  | incr : ∀ c k now s, Step s (DB.Incr c k now s).store
  | decr : ∀ c k now s, Step s (DB.Decr c k now s).store
  | incrBy : ∀ c k n now s, Step s (DB.IncrBy c k n now s).store
  | decrBy : ∀ c k n now s, Step s (DB.DecrBy c k n now s).store
  | get : ∀ c k now s, Step s (DB.Get c k now s).store
  | lpush : ∀ c k vs now s, Step s (DB.LPush c k vs now s).store
  | rpush : ∀ c k vs now s, Step s (DB.RPush c k vs now s).store
  | lpop : ∀ c k now s, Step s (DB.LPop c k now s).store
  | rpop : ∀ c k now s, Step s (DB.RPop c k now s).store
  | hset : ∀ c k f v ttl now s r, DB.HSet c k f v ttl now s = some r →
      Step s r.store
  | hdel : ∀ c k f now s r, DB.HDel c k f now s = some r → Step s r.store
  | expire : ∀ c k ttl now s, Step s (DB.Expire c k ttl now s).store
  | persist : ∀ c k now s, Step s (DB.Persist c k now s).store
  | delete : ∀ c k s, Step s (DB.Delete c k s).store
  | dropAll : ∀ c s, Step s (DB.DropAll c s).store
  | rename : ∀ c ko kn now s, Step s (DB.Rename c ko kn now s).store
  | reap : ∀ k now s, Step s (DB.reapKey k now s)

/-- A keyspace reachable from the empty store by public operations. -/
def Reachable (s : Store) : Prop := Relation.ReflTransGen Step [] s

/- ----------------------------------------------------------------------
Basic lemmas about the association-list map operations.
---------------------------------------------------------------------- -/

theorem alookup_ainsert {κ α : Type} [DecidableEq κ] (m : List (κ × α))
    (k k' : κ) (v : α) :
    alookup (ainsert m k v) k' = if k' = k then some v else alookup m k' := by
  induction m with
  | nil => by_cases h : k' = k <;> simp [ainsert, alookup, h]
  | cons hd tl ih =>
    obtain ⟨k₀, v₀⟩ := hd
    by_cases h : k = k₀
    · subst h
      by_cases h' : k' = k <;> simp [ainsert, alookup, h']
    · by_cases h' : k' = k₀
      · subst h'
        have : k' ≠ k := fun hc => h hc.symm
        simp [ainsert, alookup, h, this]
      · simp [ainsert, alookup, h, h', ih]

theorem alookup_aerase {κ α : Type} [DecidableEq κ] (m : List (κ × α))
    (k k' : κ) :
    alookup (aerase m k) k' = if k' = k then none else alookup m k' := by
  induction m with
  | nil => by_cases h : k' = k <;> simp [aerase, alookup, h]
  | cons hd tl ih =>
    obtain ⟨k₀, v₀⟩ := hd
    by_cases h : k = k₀
    · subst h
      by_cases h' : k' = k
      · subst h'
        simp [aerase, ih]
      · simp [aerase, alookup, h', ih]
    · by_cases h' : k' = k₀
      · subst h'
        have : k' ≠ k := fun hc => h hc.symm
        simp [aerase, alookup, h, this]
      · simp [aerase, alookup, h, h', ih]

theorem alookup_ainsert_self {κ α : Type} [DecidableEq κ] (m : List (κ × α))
    (k : κ) (v : α) : alookup (ainsert m k v) k = some v := by
  simp [alookup_ainsert]

theorem alookup_aerase_self {κ α : Type} [DecidableEq κ] (m : List (κ × α))
    (k : κ) : alookup (aerase m k) k = none := by
  simp [alookup_aerase]

/-- `setInternal` on a valid key with a non-negative TTL, fully evaluated:
the NX/XX gates consult only bare slot existence. -/
theorem setInternal_spec (k : String) (v : Value) (ttl : Int)
    (ie ine : Bool) (now : Nat) (s : Store) (hk : k ≠ "")
    (hneg : ¬ ttl < 0) :
    DB.setInternal false k v ttl ie ine now s =
      (let exp : Option Nat := if ttl = 0 then none else some (now + ttl.toNat)
       let present := (alookup s k).isSome
       if ie && !present then ⟨.error .keyNotFound, s, []⟩
       else if ine && present then ⟨.error .keyExists, s, []⟩
       else ⟨.ok true, ainsert s k ⟨v, .dString, exp⟩,
             [(k, "SET: " ++ fmtValue v)]⟩) := by
  simp only [DB.setInternal, ttlSecondsToTime, hk, hneg, if_false,
    Bool.false_eq_true, if_neg (fun h => hk h)]
  by_cases h0 : ttl = 0 <;> simp [h0]

/- ----------------------------------------------------------------------
Claim C1 — SetNX / SetXX versus expired entries.
---------------------------------------------------------------------- -/

/-- Claim C1 as stated is false: at `now = 10` the key "k" holds an entry
whose expiration 5 has passed, yet `SetNX` with a non-empty key and
`ttl = 0 ≥ 0` does not succeed — it returns `(false, KeyExists)` — and
symmetrically `SetXX` succeeds on that expired entry. -/
theorem claimC1_counterexample :
    isExpired ⟨.vStr "old", .dString, some 5⟩ 10 = true ∧
    (DB.SetNX false "k" (.vStr "v") 0 10
        [("k", ⟨.vStr "old", .dString, some 5⟩)]).ret = .error .keyExists ∧
    (DB.SetXX false "k" (.vStr "v") 0 10
        [("k", ⟨.vStr "old", .dString, some 5⟩)]).ret = .ok true := by
  refine ⟨rfl, rfl, rfl⟩

/-- Claim C1 (amended): for every non-empty key `k` and `ttl ≥ 0`, `SetNX`
succeeds and returns `true` — creating a STRING entry — exactly when no
slot exists for `k`; whenever a slot exists, even one holding an expired
entry, it returns `(false, KeyExists)`. Symmetrically `SetXX` succeeds
exactly when a slot exists for `k` (even an expired one), returning
`(false, KeyNotFound)` only when no slot exists. -/
theorem claimC1_amended (k : String) (v : Value) (ttl : Int) (now : Nat)
    (s : Store) (hk : k ≠ "") (httl : 0 ≤ ttl) :
    ∃ exp, ttlSecondsToTime now ttl = .ok exp ∧
      (alookup s k = none →
         (DB.SetNX false k v ttl now s).ret = .ok true ∧
         (DB.SetNX false k v ttl now s).store
            = ainsert s k ⟨v, .dString, exp⟩ ∧
         (DB.SetXX false k v ttl now s).ret = .error .keyNotFound ∧
         (DB.SetXX false k v ttl now s).store = s) ∧
      (∀ e, alookup s k = some e →
         (DB.SetNX false k v ttl now s).ret = .error .keyExists ∧
         (DB.SetNX false k v ttl now s).store = s ∧
         (DB.SetXX false k v ttl now s).ret = .ok true ∧
         (DB.SetXX false k v ttl now s).store
            = ainsert s k ⟨v, .dString, exp⟩) := by
  have hneg : ¬ ttl < 0 := by omega
  refine ⟨if ttl = 0 then none else some (now + ttl.toNat), ?_, ?_, ?_⟩
  · by_cases h0 : ttl = 0 <;> simp [ttlSecondsToTime, hneg, h0]
  · intro habs
    simp [DB.SetNX, DB.SetXX, setInternal_spec k v ttl _ _ now s hk hneg, habs]
  · intro e he
    simp [DB.SetNX, DB.SetXX, setInternal_spec k v ttl _ _ now s hk hneg, he]

/-- Witness for `claimC1_amended` at a concrete input: key "a", value "v",
`ttl = 3`, empty store. -/
theorem claimC1_amended_witness :
    ("a" : String) ≠ "" ∧ (0 : Int) ≤ 3 ∧
    ∃ exp, ttlSecondsToTime 7 3 = .ok exp ∧
      (alookup ([] : Store) "a" = none →
         (DB.SetNX false "a" (.vStr "v") 3 7 []).ret = .ok true ∧
         (DB.SetNX false "a" (.vStr "v") 3 7 []).store
            = ainsert [] "a" ⟨.vStr "v", .dString, exp⟩ ∧
         (DB.SetXX false "a" (.vStr "v") 3 7 []).ret = .error .keyNotFound ∧
         (DB.SetXX false "a" (.vStr "v") 3 7 []).store = []) ∧
      (∀ e, alookup ([] : Store) "a" = some e →
         (DB.SetNX false "a" (.vStr "v") 3 7 []).ret = .error .keyExists ∧
         (DB.SetNX false "a" (.vStr "v") 3 7 []).store = [] ∧
         (DB.SetXX false "a" (.vStr "v") 3 7 []).ret = .ok true ∧
         (DB.SetXX false "a" (.vStr "v") 3 7 []).store
            = ainsert [] "a" ⟨.vStr "v", .dString, exp⟩) :=
  ⟨by decide, by decide,
   claimC1_amended "a" (.vStr "v") 3 7 [] (by decide) (by decide)⟩

/- ----------------------------------------------------------------------
Claim C3 — Get: value / KeyNotFound / KeyExpired with lazy removal.
---------------------------------------------------------------------- -/

/-- Claim C3: `Get` returns the stored value of a non-expired entry; returns
`KeyNotFound` when no slot exists; and returns `KeyExpired` — an error
distinct from `KeyNotFound` — when the slot exists but has expired, in
which case the entry is removed from the keyspace as a side effect. -/
theorem claimC3_get (k : String) (now : Nat) (s : Store) :
    (∀ e, alookup s k = some e → isExpired e now = false →
       (DB.Get false k now s).ret = .ok e.value ∧
       (DB.Get false k now s).store = s) ∧
    (alookup s k = none →
       (DB.Get false k now s).ret = .error .keyNotFound ∧
       (DB.Get false k now s).store = s) ∧
    (∀ e, alookup s k = some e → isExpired e now = true →
       (DB.Get false k now s).ret = .error .keyExpired ∧
       (DB.Get false k now s).store = aerase s k ∧
       alookup (DB.Get false k now s).store k = none) ∧
    GoError.keyExpired ≠ GoError.keyNotFound := by
  refine ⟨?_, ?_, ?_, by decide⟩
  · intro e he hlive
    simp [DB.Get, he, hlive]
  · intro habs
    simp [DB.Get, habs]
  · intro e he hexp
    simp [DB.Get, he, hexp, alookup_aerase]

/-- The concrete store used by the witness of `claimC3_get`: a live entry
at "a", nothing at "b", an expired entry at "c" (read at `now = 10`). -/
def c3store : Store :=
  [("a", ⟨.vStr "A", .dString, none⟩), ("c", ⟨.vStr "C", .dString, some 4⟩)]

/-- Witness for `claimC3_get` at the concrete store `c3store`. -/
theorem claimC3_get_witness :
    (∀ e, alookup c3store "a" = some e → isExpired e 10 = false →
       (DB.Get false "a" 10 c3store).ret = .ok e.value ∧
       (DB.Get false "a" 10 c3store).store = c3store) ∧
    (alookup c3store "b" = none →
       (DB.Get false "b" 10 c3store).ret = .error .keyNotFound ∧
       (DB.Get false "b" 10 c3store).store = c3store) ∧
    (∀ e, alookup c3store "c" = some e → isExpired e 10 = true →
       (DB.Get false "c" 10 c3store).ret = .error .keyExpired ∧
       (DB.Get false "c" 10 c3store).store = aerase c3store "c" ∧
       alookup (DB.Get false "c" 10 c3store).store "c" = none) :=
  ⟨(claimC3_get "a" 10 c3store).1,
   (claimC3_get "b" 10 c3store).2.1,
   (claimC3_get "c" 10 c3store).2.2.1⟩

/- ----------------------------------------------------------------------
Claim C5 — LPush ordering and the empty argument vector.
---------------------------------------------------------------------- -/

/-- Claim C5: on an absent non-empty key, `LPush(k, a, b, c)` creates a
LIST whose contents are `[c, b, a]` — the first element after the push is
the last value supplied — and `LRange(k, 0, -1)` then returns `[c, b, a]`;
`LPush` and `RPush` with an empty argument vector fail `EmptyValues`. -/
theorem claimC5_lpush (k : String) (a b c : Value) (now : Nat) (s : Store)
    (hk : k ≠ "") (habs : alookup s k = none) :
    (DB.LPush false k [a, b, c] now s).ret = .ok () ∧
    alookup (DB.LPush false k [a, b, c] now s).store k
       = some ⟨.vList [c, b, a], .dList, none⟩ ∧
    (DB.LRange false k 0 (-1) now
        (DB.LPush false k [a, b, c] now s).store).ret = .ok [c, b, a] ∧
    (DB.LPush false k [] now s).ret = .error .emptyValues ∧
    (DB.LPush false k [] now s).store = s ∧
    (DB.RPush false k [] now s).ret = .error .emptyValues ∧
    (DB.RPush false k [] now s).store = s := by
  have hstore : (DB.LPush false k [a, b, c] now s).store
      = ainsert s k ⟨.vList [c, b, a], .dList, none⟩ := by
    simp [DB.LPush, hk, habs]
  refine ⟨?_, ?_, ?_, ?_, ?_, ?_, ?_⟩
  · simp [DB.LPush, hk, habs]
  · rw [hstore]; exact alookup_ainsert_self s k _
  · rw [hstore]
    simp [DB.LRange, alookup_ainsert_self, isExpired, lrangeClaim]
  · simp [DB.LPush, hk]
  · simp [DB.LPush, hk]
  · simp [DB.RPush]
  · simp [DB.RPush]

/-- Witness for `claimC5_lpush` at key "a" over the empty store. -/
theorem claimC5_lpush_witness :
    (DB.LPush false "a" [.vInt 1, .vInt 2, .vInt 3] 0 []).ret = .ok () ∧
    alookup (DB.LPush false "a" [.vInt 1, .vInt 2, .vInt 3] 0 []).store "a"
       = some ⟨.vList [.vInt 3, .vInt 2, .vInt 1], .dList, none⟩ ∧
    (DB.LRange false "a" 0 (-1) 0
        (DB.LPush false "a" [.vInt 1, .vInt 2, .vInt 3] 0 []).store).ret
       = .ok [.vInt 3, .vInt 2, .vInt 1] ∧
    (DB.LPush false "a" [] 0 []).ret = .error .emptyValues ∧
    (DB.LPush false "a" [] 0 []).store = [] ∧
    (DB.RPush false "a" [] 0 []).ret = .error .emptyValues ∧
    (DB.RPush false "a" [] 0 []).store = [] :=
  claimC5_lpush "a" (.vInt 1) (.vInt 2) (.vInt 3) 0 [] (by decide) rfl

/- ----------------------------------------------------------------------
Claim C6 — LRange index arithmetic.
---------------------------------------------------------------------- -/

/-- Claim C6: on a stored non-expired LIST, `LRange` computes exactly the
claim's procedure `lrangeClaim`: negative indices become `len + index`,
`start` is clamped below to 0 and `end` above to `len - 1`, the result is
empty when `start > end` or `start ≥ len`, and otherwise it is the
elements `list[start..=end]` in order; the keyspace is untouched. -/
theorem claimC6_lrange (k : String) (start endIdx : Int) (now : Nat)
    (s : Store) (e : Entry) (l : List Value) (he : alookup s k = some e)
    (hlive : isExpired e now = false) (ht : e.type = .dList)
    (hv : e.value = .vList l) :
    (DB.LRange false k start endIdx now s).ret
       = .ok (lrangeClaim l start endIdx) ∧
    (DB.LRange false k start endIdx now s).store = s := by
  have hcore : DB.LRange false k start endIdx now s
      = ⟨.ok (lrangeClaim l start endIdx), s, []⟩ := by
    simp only [DB.LRange, lrangeClaim, he, hlive, ht, hv, Bool.false_eq_true,
      if_false, ne_eq, not_true_eq_false, reduceIte]
    split_ifs <;> rfl
  exact ⟨by rw [hcore], by rw [hcore]⟩

/-- Witness for `claimC6_lrange`: a three-element list queried with
negative indices (`start = -3`, `end = -2`). -/
theorem claimC6_lrange_witness :
    (DB.LRange false "a" (-3) (-2) 5
        [("a", ⟨.vList [.vInt 1, .vInt 2, .vInt 3], .dList, none⟩)]).ret
       = .ok (lrangeClaim [.vInt 1, .vInt 2, .vInt 3] (-3) (-2)) ∧
    (DB.LRange false "a" (-3) (-2) 5
        [("a", ⟨.vList [.vInt 1, .vInt 2, .vInt 3], .dList, none⟩)]).store
       = [("a", ⟨.vList [.vInt 1, .vInt 2, .vInt 3], .dList, none⟩)] :=
  claimC6_lrange "a" (-3) (-2) 5 _ ⟨.vList [.vInt 1, .vInt 2, .vInt 3], .dList, none⟩
    [.vInt 1, .vInt 2, .vInt 3] rfl rfl rfl rfl

/- ----------------------------------------------------------------------
Claim C7 — HSet frame: TTL handling, single-field update, kind fixed.
---------------------------------------------------------------------- -/

/-- Claim C7: on a present, non-expired HASH entry, `HSet` with `ttl = 0`
preserves the existing expiration while `ttl > 0` resets it to
`now + ttl`; in both cases the stored entry stays a HASH whose payload
changed only at field `f` (other fields and other keys untouched); on a
present non-hash entry `HSet` fails `InvalidType` without changing the
keyspace. -/
theorem claimC7_hset (k f : String) (v : Value) (now : Nat) (s : Store)
    (e : Entry) (he : alookup s k = some e)
    (hlive : isExpired e now = false) :
    (∀ h, e.type = .dHash → e.value = .vHash h →
       DB.HSet false k f v 0 now s
          = some ⟨.ok (), ainsert s k ⟨.vHash (ainsert h f v), .dHash,
                                       e.expiration⟩, []⟩ ∧
       (∀ ttl : Int, 0 < ttl →
          DB.HSet false k f v ttl now s
             = some ⟨.ok (), ainsert s k ⟨.vHash (ainsert h f v), .dHash,
                                          some (now + ttl.toNat)⟩, []⟩) ∧
       alookup (ainsert h f v) f = some v ∧
       (∀ g, g ≠ f → alookup (ainsert h f v) g = alookup h g) ∧
       (∀ k', k' ≠ k →
          alookup (ainsert s k ⟨.vHash (ainsert h f v), .dHash,
                                e.expiration⟩) k' = alookup s k')) ∧
    (e.type ≠ .dHash → ∀ ttl : Int, 0 ≤ ttl →
       DB.HSet false k f v ttl now s = some ⟨.error .invalidType, s, []⟩) := by
  constructor
  · intro h ht hv
    refine ⟨?_, ?_, alookup_ainsert_self h f v, ?_, ?_⟩
    · simp [DB.HSet, ttlSecondsToTime, he, hlive, ht, hv]
    · intro ttl httl
      have h0 : ttl ≠ 0 := by omega
      have hneg : ¬ ttl < 0 := by omega
      simp [DB.HSet, ttlSecondsToTime, he, hlive, ht, hv, h0, hneg]
    · intro g hg
      simp [alookup_ainsert, hg]
    · intro k' hk'
      simp [alookup_ainsert, hk']
  · intro ht ttl httl
    have hneg : ¬ ttl < 0 := by omega
    by_cases h0 : ttl = 0 <;>
      simp [DB.HSet, ttlSecondsToTime, he, hlive, ht, h0, hneg]

/-- The concrete store used by the witness of `claimC7_hset`: key "h" holds
a hash with fields f1, f2 and expiration 30; key "sx" holds a string. -/
def c7store : Store :=
  [("h", ⟨.vHash [("f1", .vInt 1), ("f2", .vInt 2)], .dHash, some 30⟩),
   ("sx", ⟨.vStr "x", .dString, none⟩)]

/-- Witness for `claimC7_hset` at `c7store`, setting field "f1" at
`now = 10`. -/
theorem claimC7_hset_witness :
    (∀ h, (⟨Value.vHash [("f1", .vInt 1), ("f2", .vInt 2)], .dHash,
            some 30⟩ : Entry).type = .dHash →
       (⟨Value.vHash [("f1", .vInt 1), ("f2", .vInt 2)], .dHash,
         some 30⟩ : Entry).value = .vHash h →
       DB.HSet false "h" "f1" (.vInt 9) 0 10 c7store
          = some ⟨.ok (), ainsert c7store "h"
              ⟨.vHash (ainsert h "f1" (.vInt 9)), .dHash, some 30⟩, []⟩ ∧
       (∀ ttl : Int, 0 < ttl →
          DB.HSet false "h" "f1" (.vInt 9) ttl 10 c7store
             = some ⟨.ok (), ainsert c7store "h"
                 ⟨.vHash (ainsert h "f1" (.vInt 9)), .dHash,
                  some (10 + ttl.toNat)⟩, []⟩) ∧
       alookup (ainsert h "f1" (.vInt 9)) "f1" = some (.vInt 9) ∧
       (∀ g, g ≠ "f1" →
          alookup (ainsert h "f1" (.vInt 9)) g = alookup h g) ∧
       (∀ k', k' ≠ "h" →
          alookup (ainsert c7store "h"
            ⟨.vHash (ainsert h "f1" (.vInt 9)), .dHash, some 30⟩) k'
             = alookup c7store k')) ∧
    ((⟨Value.vHash [("f1", .vInt 1), ("f2", .vInt 2)], .dHash,
       some 30⟩ : Entry).type ≠ .dHash → ∀ ttl : Int, 0 ≤ ttl →
       DB.HSet false "h" "f1" (.vInt 9) ttl 10 c7store
          = some ⟨.error .invalidType, c7store, []⟩) :=
  claimC7_hset "h" "f1" (.vInt 9) 10 c7store
    ⟨.vHash [("f1", .vInt 1), ("f2", .vInt 2)], .dHash, some 30⟩ rfl rfl

/- ----------------------------------------------------------------------
Claim C8 — Rename: errors, entry movement, notifications.
---------------------------------------------------------------------- -/

/-- Claim C8 as stated is false: with a live entry at "old" and an entry at
"new" that expired at 5, at `now = 10` `Rename` fails with `KeyExists`
even though the target entry is expired — the conflict check consults only
bare slot existence. -/
theorem claimC8_counterexample :
    isExpired ⟨.vStr "stale", .dString, some 5⟩ 10 = true ∧
    (DB.Rename false "old" "new" 10
        [("old", ⟨.vStr "live", .dString, none⟩),
         ("new", ⟨.vStr "stale", .dString, some 5⟩)]).ret
       = .error .keyExists := by
  refine ⟨rfl, rfl⟩

/-- Claim C8 (amended): for distinct non-empty keys, `Rename` fails
`KeyNotFound` when the source is absent or expired, and fails `KeyExists`
whenever a slot exists for the target key — even when that entry is
expired; otherwise it moves the source entry unchanged to the new key,
deletes the old key, and publishes `RENAMED` on the old key's topic and
`CREATED (via rename)` on the new key's topic. -/
theorem claimC8_amended (oldKey newKey : String) (now : Nat) (s : Store)
    (hold : oldKey ≠ "") (hnew : newKey ≠ "") (hne : oldKey ≠ newKey) :
    (alookup s oldKey = none →
       (DB.Rename false oldKey newKey now s).ret = .error .keyNotFound ∧
       (DB.Rename false oldKey newKey now s).store = s) ∧
    (∀ e, alookup s oldKey = some e → isExpired e now = true →
       (DB.Rename false oldKey newKey now s).ret = .error .keyNotFound ∧
       (DB.Rename false oldKey newKey now s).store = s) ∧
    (∀ e e', alookup s oldKey = some e → isExpired e now = false →
       alookup s newKey = some e' →
       (DB.Rename false oldKey newKey now s).ret = .error .keyExists ∧
       (DB.Rename false oldKey newKey now s).store = s) ∧
    (∀ e, alookup s oldKey = some e → isExpired e now = false →
       alookup s newKey = none →
       (DB.Rename false oldKey newKey now s).ret = .ok () ∧
       alookup (DB.Rename false oldKey newKey now s).store newKey = some e ∧
       alookup (DB.Rename false oldKey newKey now s).store oldKey = none ∧
       (∀ k', k' ≠ oldKey → k' ≠ newKey →
          alookup (DB.Rename false oldKey newKey now s).store k'
             = alookup s k') ∧
       (DB.Rename false oldKey newKey now s).pubs
          = [(oldKey, "RENAMED"), (newKey, "CREATED (via rename)")]) := by
  refine ⟨?_, ?_, ?_, ?_⟩
  · intro habs
    simp [DB.Rename, hold, hnew, hne, habs]
  · intro e he hexp
    simp [DB.Rename, hold, hnew, hne, he, hexp]
  · intro e e' he hlive he'
    simp [DB.Rename, hold, hnew, hne, he, hlive, he']
  · intro e he hlive habs
    have hstore : (DB.Rename false oldKey newKey now s).store
        = aerase (ainsert s newKey e) oldKey := by
      simp [DB.Rename, hold, hnew, hne, he, hlive, habs]
    refine ⟨?_, ?_, ?_, ?_, ?_⟩
    · simp [DB.Rename, hold, hnew, hne, he, hlive, habs]
    · rw [hstore]
      simp [alookup_aerase, alookup_ainsert, hne, Ne.symm hne]
    · rw [hstore]
      simp [alookup_aerase]
    · intro k' h1 h2
      rw [hstore]
      simp [alookup_aerase, alookup_ainsert, h1, h2]
    · simp [DB.Rename, hold, hnew, hne, he, hlive, habs]

/-- The concrete store used by the witness of `claimC8_amended`: a single
live entry at "old". -/
def c8store : Store := [("old", ⟨.vStr "live", .dString, none⟩)]

/-- Witness for `claimC8_amended`: a live entry at "old", no entry at
"new", renamed at `now = 0`. -/
theorem claimC8_amended_witness :
    (alookup c8store "old" = none →
       (DB.Rename false "old" "new" 0 c8store).ret = .error .keyNotFound ∧
       (DB.Rename false "old" "new" 0 c8store).store = c8store) ∧
    (∀ e, alookup c8store "old" = some e → isExpired e 0 = true →
       (DB.Rename false "old" "new" 0 c8store).ret = .error .keyNotFound ∧
       (DB.Rename false "old" "new" 0 c8store).store = c8store) ∧
    (∀ e e', alookup c8store "old" = some e → isExpired e 0 = false →
       alookup c8store "new" = some e' →
       (DB.Rename false "old" "new" 0 c8store).ret = .error .keyExists ∧
       (DB.Rename false "old" "new" 0 c8store).store = c8store) ∧
    (∀ e, alookup c8store "old" = some e → isExpired e 0 = false →
       alookup c8store "new" = none →
       (DB.Rename false "old" "new" 0 c8store).ret = .ok () ∧
       alookup (DB.Rename false "old" "new" 0 c8store).store "new" = some e ∧
       alookup (DB.Rename false "old" "new" 0 c8store).store "old" = none ∧
       (∀ k', k' ≠ "old" → k' ≠ "new" →
          alookup (DB.Rename false "old" "new" 0 c8store).store k'
             = alookup c8store k') ∧
       (DB.Rename false "old" "new" 0 c8store).pubs
          = [("old", "RENAMED"), ("new", "CREATED (via rename)")]) :=
  claimC8_amended "old" "new" 0 c8store (by decide) (by decide) (by decide)

/- ----------------------------------------------------------------------
Claim C10 — Unsubscribe closes unconditionally; double close panics.
---------------------------------------------------------------------- -/

/-- Claim C10: for any topic `t` and any channel created by `Subscribe` —
whether or not it is registered under `t` — `Unsubscribe(t, ch)` closes
the channel if it is still open; on an already-closed channel the `close`
panics (`none`), so after one `Unsubscribe` any further `Unsubscribe`
naming the same channel panics under every topic: the operation is not
idempotent and must be invoked at most once per sink. -/
theorem claimC10_unsubscribe (ps : PubSub) (t : String) (ch : Nat)
    (st : SinkState) (hst : alookup ps.sinks ch = some st) :
    (st.closed = false →
       ∃ ps', PS.Unsubscribe ps t ch = some ps' ∧
         alookup ps'.sinks ch = some ⟨st.buf, true⟩ ∧
         ∀ t₂, PS.Unsubscribe ps' t₂ ch = none) ∧
    (st.closed = true → PS.Unsubscribe ps t ch = none) := by
  constructor
  · intro hopen
    simp only [PS.Unsubscribe, PS.closeSink, hst, hopen, Bool.false_eq_true,
      if_false, reduceIte]
    refine ⟨_, rfl, alookup_ainsert_self _ _ _, ?_⟩
    intro t₂
    simp [PS.Unsubscribe, PS.closeSink, alookup_ainsert_self]
  · intro hclosed
    simp [PS.Unsubscribe, PS.closeSink, hst, hclosed]

/-- Witness for `claimC10_unsubscribe`: one sink subscribed to topic "a",
unsubscribed with the unrelated topic "b". -/
theorem claimC10_unsubscribe_witness :
    ((⟨[], false⟩ : SinkState).closed = false →
       ∃ ps', PS.Unsubscribe (PS.Subscribe (PS.NewPubSub 2) "a").1 "b"
                (PS.Subscribe (PS.NewPubSub 2) "a").2 = some ps' ∧
         alookup ps'.sinks (PS.Subscribe (PS.NewPubSub 2) "a").2
            = some ⟨(⟨[], false⟩ : SinkState).buf, true⟩ ∧
         ∀ t₂, PS.Unsubscribe ps' t₂
                 (PS.Subscribe (PS.NewPubSub 2) "a").2 = none) ∧
    ((⟨[], false⟩ : SinkState).closed = true →
       PS.Unsubscribe (PS.Subscribe (PS.NewPubSub 2) "a").1 "b"
         (PS.Subscribe (PS.NewPubSub 2) "a").2 = none) :=
  claimC10_unsubscribe (PS.Subscribe (PS.NewPubSub 2) "a").1 "b"
    (PS.Subscribe (PS.NewPubSub 2) "a").2 ⟨[], false⟩ rfl

/- ----------------------------------------------------------------------
Claim C9 — Publish: lossy non-blocking fan-out.
---------------------------------------------------------------------- -/

/-- The pubsub state of the C9 counterexample: one sink subscribed to
topic "a", then closed by `Unsubscribe` under the unrelated topic "b" —
which leaves it registered under "a". -/
def c9ps : PubSub :=
  (PS.Unsubscribe (PS.Subscribe (PS.NewPubSub 2) "a").1 "b"
     (PS.Subscribe (PS.NewPubSub 2) "a").2).getD (PS.NewPubSub 2)

/-- Claim C9 as stated is false: a sink closed by a mismatched
`Unsubscribe` stays registered under its topic, and the next `Publish` to
that topic panics (send on a closed channel chosen by the `select`) rather
than returning normally. -/
theorem claimC9_counterexample :
    PS.Unsubscribe (PS.Subscribe (PS.NewPubSub 2) "a").1 "b"
        (PS.Subscribe (PS.NewPubSub 2) "a").2 = some c9ps ∧
    alookup c9ps.subscribers "a" = some [0] ∧
    alookup c9ps.sinks 0 = some ⟨[], true⟩ ∧
    PS.Publish c9ps "a" "m" = none :=
  ⟨rfl, rfl, rfl, rfl⟩

/-- The send loop of `Publish` over a duplicate-free set of open sinks:
it never panics, appends the message to every sink with room, leaves full
sinks and all unregistered sinks unchanged, and touches no other field. -/
theorem publishLoop_spec (msg : String) (ids : List Nat) :
    ∀ acc : PubSub, ids.Nodup →
      (∀ ch ∈ ids, ∃ st, alookup acc.sinks ch = some st ∧ st.closed = false) →
      ∃ out, PS.publishLoop msg ids acc = some out ∧
        out.subscribers = acc.subscribers ∧
        out.bufferSize = acc.bufferSize ∧
        out.nextId = acc.nextId ∧
        (∀ ch, ch ∉ ids → alookup out.sinks ch = alookup acc.sinks ch) ∧
        (∀ ch ∈ ids, ∀ st, alookup acc.sinks ch = some st →
           alookup out.sinks ch = some (PS.sendUpd acc.bufferSize st msg)) := by
  induction ids with
  | nil =>
    intro acc _ _
    exact ⟨acc, rfl, rfl, rfl, rfl, fun _ _ => rfl, by simp⟩
  | cons ch ids ih =>
    intro acc hnd hopen
    obtain ⟨st, hst, hcl⟩ := hopen ch (List.mem_cons_self ch ids)
    have hch : ch ∉ ids := (List.nodup_cons.mp hnd).1
    have hnd' : ids.Nodup := (List.nodup_cons.mp hnd).2
    -- the effect of the first send
    obtain ⟨acc', hsend, hsubs', hbs', hid', hkeep', hch'⟩ :
        ∃ acc', PS.trySend acc ch msg = some acc' ∧
          acc'.subscribers = acc.subscribers ∧
          acc'.bufferSize = acc.bufferSize ∧
          acc'.nextId = acc.nextId ∧
          (∀ ch₂, ch₂ ≠ ch → alookup acc'.sinks ch₂ = alookup acc.sinks ch₂) ∧
          alookup acc'.sinks ch = some (PS.sendUpd acc.bufferSize st msg) := by
      by_cases hroom : st.buf.length < acc.bufferSize
      · refine ⟨⟨acc.subscribers, ainsert acc.sinks ch ⟨st.buf ++ [msg], false⟩,
            acc.bufferSize, acc.nextId⟩, ?_, rfl, rfl, rfl, ?_, ?_⟩
        · simp [PS.trySend, hst, hcl, hroom]
        · intro ch₂ h2
          simp [alookup_ainsert, h2]
        · simp [alookup_ainsert_self, PS.sendUpd, hroom, hcl]
      · refine ⟨acc, ?_, rfl, rfl, rfl, fun _ _ => rfl, ?_⟩
        · simp [PS.trySend, hst, hcl, hroom]
        · simp [PS.sendUpd, hroom, hst]
    have hopen' : ∀ ch₂ ∈ ids, ∃ st₂, alookup acc'.sinks ch₂ = some st₂ ∧
        st₂.closed = false := by
      intro ch₂ h2
      obtain ⟨st₂, h, hc⟩ := hopen ch₂ (List.mem_cons_of_mem ch h2)
      have hne : ch₂ ≠ ch := fun hc₂ => hch (hc₂ ▸ h2)
      exact ⟨st₂, (hkeep' ch₂ hne).trans h, hc⟩
    obtain ⟨out, hloop, h1, h2, h3, h4, h5⟩ := ih acc' hnd' hopen'
    refine ⟨out, ?_, h1.trans hsubs', h2.trans hbs', h3.trans hid', ?_, ?_⟩
    · simp [PS.publishLoop, hsend, hloop]
    · intro ch₂ hn
      have hn1 : ch₂ ≠ ch := fun hc => hn (hc ▸ List.mem_cons_self ch ids)
      have hn2 : ch₂ ∉ ids := fun hc => hn (List.mem_cons_of_mem ch hc)
      exact (h4 ch₂ hn2).trans (hkeep' ch₂ hn1)
    · intro ch₂ hm st₂ hst₂
      rcases List.mem_cons.mp hm with hc | hc
      · subst hc
        have : st₂ = st := by
          have := hst₂.symm.trans hst
          exact (Option.some.inj this)
        subst this
        exact (h4 ch₂ hch).trans hch'
      · have hne : ch₂ ≠ ch := fun h => hch (h ▸ hc)
        have := h5 ch₂ hc st₂ ((hkeep' ch₂ hne).trans hst₂)
        rw [hbs'] at this
        exact this

/-- Claim C9 (amended): provided every sink registered under the topic is
still open (no sink closed by a mismatched `Unsubscribe` remains
registered), `Publish` returns normally and delivers the message to
exactly those registered sinks whose buffers hold fewer than
`PubSubBufferSize` pending messages, appending it; full sinks and the
sinks of other topics are unchanged, and no sink ever exceeds the
capacity. When a closed sink remains registered, `Publish` panics
instead (see the counterexample). -/
theorem claimC9_amended (ps : PubSub) (key msg : String)
    (hnd : ((alookup ps.subscribers key).getD []).Nodup)
    (hopen : ∀ ch ∈ (alookup ps.subscribers key).getD [],
       ∃ st, alookup ps.sinks ch = some st ∧ st.closed = false)
    (hcap : ∀ ch st, alookup ps.sinks ch = some st →
       st.buf.length ≤ ps.bufferSize) :
    ∃ ps', PS.Publish ps key msg = some ps' ∧
      ps'.subscribers = ps.subscribers ∧
      ps'.bufferSize = ps.bufferSize ∧
      (∀ ch ∈ (alookup ps.subscribers key).getD [], ∀ st,
         alookup ps.sinks ch = some st →
         alookup ps'.sinks ch = some (PS.sendUpd ps.bufferSize st msg)) ∧
      (∀ ch, ch ∉ (alookup ps.subscribers key).getD [] →
         alookup ps'.sinks ch = alookup ps.sinks ch) ∧
      (∀ ch st, alookup ps'.sinks ch = some st →
         st.buf.length ≤ ps.bufferSize) := by
  cases hsubs : alookup ps.subscribers key with
  | none =>
    refine ⟨ps, by simp [PS.Publish, hsubs], rfl, rfl, ?_, fun _ _ => rfl, hcap⟩
    intro ch hm
    simp at hm
  | some ids =>
    simp only [hsubs, Option.getD_some] at hnd hopen ⊢
    obtain ⟨out, hloop, h1, h2, _h3, h4, h5⟩ :=
      publishLoop_spec msg ids ps hnd hopen
    refine ⟨out, ?_, h1, h2, ?_, ?_, ?_⟩
    · simp [PS.Publish, hsubs, hloop]
    · intro ch hm st hst
      exact h5 ch hm st hst
    · intro ch hm
      exact h4 ch hm
    · intro ch st hst
      by_cases hm : ch ∈ ids
      · obtain ⟨st₀, hst₀, _⟩ := hopen ch hm
        have := h5 ch hm st₀ hst₀
        rw [hst] at this
        have heq : st = PS.sendUpd ps.bufferSize st₀ msg :=
          Option.some.inj this
        subst heq
        have hb := hcap ch st₀ hst₀
        by_cases hroom : st₀.buf.length < ps.bufferSize
        · simp [PS.sendUpd, hroom]
          omega
        · simp [PS.sendUpd, hroom]
          exact hb
      · have := h4 ch hm
        rw [hst] at this
        exact hcap ch st this.symm

/-- The concrete pubsub state of the C9 witness: two open sinks on topic
"t" with capacity 1 — sink 0 has room, sink 1 is full. -/
def c9wps : PubSub :=
  ⟨[("t", [0, 1])], [(0, ⟨[], false⟩), (1, ⟨["old"], false⟩)], 1, 2⟩

/-- Witness for `claimC9_amended` at `c9wps` with message "m". -/
theorem claimC9_amended_witness :
    ∃ ps', PS.Publish c9wps "t" "m" = some ps' ∧
      ps'.subscribers = c9wps.subscribers ∧
      ps'.bufferSize = c9wps.bufferSize ∧
      (∀ ch ∈ (alookup c9wps.subscribers "t").getD [], ∀ st,
         alookup c9wps.sinks ch = some st →
         alookup ps'.sinks ch = some (PS.sendUpd c9wps.bufferSize st "m")) ∧
      (∀ ch, ch ∉ (alookup c9wps.subscribers "t").getD [] →
         alookup ps'.sinks ch = alookup c9wps.sinks ch) ∧
      (∀ ch st, alookup ps'.sinks ch = some st →
         st.buf.length ≤ c9wps.bufferSize) :=
  claimC9_amended c9wps "t" "m" (by decide)
    (by
      intro ch hm
      simp only [c9wps, alookup, reduceIte, Option.getD_some] at hm
      simp only [List.mem_cons, List.not_mem_nil, or_false] at hm
      rcases hm with rfl | rfl
      · exact ⟨⟨[], false⟩, rfl, rfl⟩
      · exact ⟨⟨["old"], false⟩, rfl, rfl⟩)
    (by
      intro ch st hst
      simp only [c9wps, alookup] at hst
      split at hst
      · cases hst; decide
      · split at hst
        · cases hst; decide
        · cases hst)

/- ----------------------------------------------------------------------
Claim C2 — transaction rollback on NX conflict.
---------------------------------------------------------------------- -/

/-- The store after `Set("k", "A", 0)` on the empty keyspace. -/
def c2store : Store := (DB.Set false "k" (.vStr "A") 0 0 []).store

/-- Recording `tx.SetNX("k", "B", 0)` on a fresh transaction over
`c2store`. -/
def c2rec : Except GoError Unit × Transaction :=
  Tx.SetNXTx false ⟨[], [], true⟩ "k" (.vStr "B") 0 0 c2store

/-- Committing the recorded transaction against `c2store`. -/
def c2commit : Except GoError Unit × Transaction × Store :=
  Tx.Commit 0 c2rec.2 c2store

/-- Claim C2: after `Set("k","A",0)`, recording `tx.SetNX("k","B",0)`
succeeds (snapshotting the old entry for rollback); `Commit` fails with
`TransactionFailed` wrapping the underlying `KeyExists` of the replayed
`SetNX`, the recorded rollbacks run (restoring the snapshot), the
transaction is left inactive with cleared state, and `Get("k")` still
returns "A". -/
theorem claimC2_tx_rollback :
    c2rec.1 = .ok () ∧
    c2rec.2.commands = [.cmdSetNX "k" (.vStr "B") 0] ∧
    c2rec.2.rollback = [.rbRestore "k" ⟨.vStr "A", .dString, none⟩] ∧
    c2commit.1 = .error (.transactionFailed .keyExists) ∧
    c2commit.2.1.active = false ∧
    c2commit.2.1.commands = [] ∧
    c2commit.2.1.rollback = [] ∧
    (DB.Get false "k" 0 c2commit.2.2).ret = .ok (.vStr "A") :=
  ⟨rfl, rfl, rfl, rfl, rfl, rfl, rfl, rfl⟩

/- ----------------------------------------------------------------------
Claim C4 — no empty LIST/HASH containers in reachable states.
---------------------------------------------------------------------- -/

theorem wf_nil : Wf ([] : Store) := by
  intro k e h
  simp [alookup] at h

theorem wf_ainsert (s : Store) (k : String) (e : Entry) (hs : Wf s)
    (he : WfEntry e) : Wf (ainsert s k e) := by
  intro k' e' h
  rw [alookup_ainsert] at h
  split at h
  · cases h; exact he
  · exact hs k' e' h

theorem wf_aerase (s : Store) (k : String) (hs : Wf s) : Wf (aerase s k) := by
  intro k' e' h
  rw [alookup_aerase] at h
  split at h
  · cases h
  · exact hs k' e' h

theorem wfEntry_string (v : Value) (exp : Option Nat) :
    WfEntry ⟨v, .dString, exp⟩ :=
  ⟨fun h => DataType.noConfusion h, fun h => DataType.noConfusion h⟩

theorem wfEntry_list (l : List Value) (exp : Option Nat) (hl : l ≠ []) :
    WfEntry ⟨.vList l, .dList, exp⟩ :=
  ⟨fun _ => ⟨l, rfl, hl⟩, fun h => DataType.noConfusion h⟩

theorem wfEntry_hash (h : List (String × Value)) (exp : Option Nat)
    (hh : h ≠ []) : WfEntry ⟨.vHash h, .dHash, exp⟩ :=
  ⟨fun h' => DataType.noConfusion h', fun _ => ⟨h, rfl, hh⟩⟩

/-- An entry whose payload is an int64 scalar keeps well-formedness under
any int64 payload replacement that preserves the kind. -/
theorem wfEntry_int_of (e : Entry) (hwe : WfEntry e) (m : Int)
    (hv : e.value = .vInt m) (n : Int) (exp : Option Nat) :
    WfEntry ⟨.vInt n, e.type, exp⟩ := by
  constructor
  · intro ht
    obtain ⟨l, hl, _⟩ := hwe.1 ht
    rw [hv] at hl
    exact Value.noConfusion hl
  · intro ht
    obtain ⟨h0, hh, _⟩ := hwe.2 ht
    rw [hv] at hh
    exact Value.noConfusion hh

theorem ainsert_ne_nil {κ α : Type} [DecidableEq κ] (m : List (κ × α))
    (k : κ) (v : α) : ainsert m k v ≠ [] := by
  cases m with
  | nil => simp [ainsert]
  | cons hd tl =>
    obtain ⟨k', v'⟩ := hd
    by_cases h : k = k' <;> simp [ainsert, h]

theorem wf_setInternal (c : Bool) (k : String) (v : Value) (ttl : Int)
    (ie ine : Bool) (now : Nat) (s : Store) (hs : Wf s) :
    Wf (DB.setInternal c k v ttl ie ine now s).store := by
  unfold DB.setInternal
  dsimp only
  repeat' split
  all_goals first
    | exact hs
    | exact wf_ainsert s k _ hs (wfEntry_string v _)

theorem wf_get (c : Bool) (k : String) (now : Nat) (s : Store) (hs : Wf s) :
    Wf (DB.Get c k now s).store := by
  unfold DB.Get
  repeat' split
  all_goals first
    | exact hs
    | exact wf_aerase s k hs

theorem wf_setCAS (c : Bool) (k : String) (ov nv : Value) (ttl : Int)
    (now : Nat) (s : Store) (r : OpResult Unit) (hs : Wf s)
    (heq : DB.SetCAS c k ov nv ttl now s = some r) : Wf r.store := by
  unfold DB.SetCAS at heq
  split at heq
  · cases heq; exact hs
  split at heq
  · cases heq; exact hs
  split at heq
  · cases heq; exact hs
  rename_i e he
  split at heq
  · cases heq; exact wf_aerase s k hs
  rename_i hlive
  split at heq
  · cases heq
  · cases heq; exact hs
  · rename_i hgo
    cases heq
    refine wf_ainsert s k _ hs ?_
    have hwe := hs k e he
    constructor
    · intro ht
      obtain ⟨l, hl, _⟩ := hwe.1 ht
      rw [hl] at hgo
      cases ov <;> simp [DB.goValueEq] at hgo
    · intro ht
      obtain ⟨h0, hh, _⟩ := hwe.2 ht
      rw [hh] at hgo
      cases ov <;> simp [DB.goValueEq] at hgo

theorem wf_getSet (c : Bool) (k : String) (v : Value) (ttl : Int)
    (now : Nat) (s : Store) (hs : Wf s) :
    Wf (DB.GetSet c k v ttl now s).store := by
  unfold DB.GetSet
  dsimp only
  repeat' split
  all_goals first
    | exact hs
    | exact wf_ainsert _ k _ hs (wfEntry_string v _)
    | exact wf_ainsert _ k _ (wf_aerase s k hs) (wfEntry_string v _)

theorem wf_incr (c : Bool) (k : String) (now : Nat) (s : Store) (hs : Wf s) :
    Wf (DB.Incr c k now s).store := by
  unfold DB.Incr
  split
  · exact hs
  split
  · exact wf_ainsert s k _ hs (wfEntry_string _ _)
  rename_i e he
  split
  · exact wf_ainsert s k _ hs (wfEntry_string _ _)
  split
  · rename_i m hv
    exact wf_ainsert s k _ hs (wfEntry_int_of e (hs k e he) m hv _ _)
  · exact hs

theorem wf_decr (c : Bool) (k : String) (now : Nat) (s : Store) (hs : Wf s) :
    Wf (DB.Decr c k now s).store := by
  unfold DB.Decr
  split
  · exact hs
  split
  · exact wf_ainsert s k _ hs (wfEntry_string _ _)
  rename_i e he
  split
  · exact wf_ainsert s k _ hs (wfEntry_string _ _)
  split
  · rename_i m hv
    exact wf_ainsert s k _ hs (wfEntry_int_of e (hs k e he) m hv _ _)
  · exact hs

theorem wf_incrBy (c : Bool) (k : String) (n : Int) (now : Nat) (s : Store)
    (hs : Wf s) : Wf (DB.IncrBy c k n now s).store := by
  unfold DB.IncrBy
  split
  · exact hs
  split
  · exact wf_ainsert s k _ hs (wfEntry_string _ _)
  rename_i e he
  split
  · exact wf_ainsert s k _ hs (wfEntry_string _ _)
  split
  · exact hs
  split
  · rename_i m hv
    exact wf_ainsert s k _ hs (wfEntry_int_of e (hs k e he) m hv _ _)
  · exact hs

theorem wf_decrBy (c : Bool) (k : String) (n : Int) (now : Nat) (s : Store)
    (hs : Wf s) : Wf (DB.DecrBy c k n now s).store :=
  wf_incrBy c k (-n) now s hs

theorem ne_nil_of_isEmpty_false {α : Type} (l : List α)
    (h : ¬ l.isEmpty = true) : l ≠ [] := by
  cases l with
  | nil => simp at h
  | cons a as => simp

theorem wf_lpush (c : Bool) (k : String) (vs : List Value) (now : Nat)
    (s : Store) (hs : Wf s) : Wf (DB.LPush c k vs now s).store := by
  unfold DB.LPush
  split
  · exact hs
  split
  · exact hs
  split
  · exact hs
  rename_i hvals
  have hvr : vs.reverse ≠ [] := by
    intro h
    exact ne_nil_of_isEmpty_false vs hvals (List.reverse_eq_nil_iff.mp h)
  split
  · rename_i e he
    split
    · exact wf_ainsert _ k _ (wf_aerase s k hs) (wfEntry_list _ _ hvr)
    split
    · exact hs
    rename_i htype
    split
    · rename_i l hl
      refine wf_ainsert s k _ hs ?_
      rw [not_not.mp htype]
      refine wfEntry_list _ _ ?_
      intro h
      exact hvr (List.append_eq_nil.mp h).1
    · exact hs
  · exact wf_ainsert s k _ hs (wfEntry_list _ _ hvr)

theorem wf_rpush (c : Bool) (k : String) (vs : List Value) (now : Nat)
    (s : Store) (hs : Wf s) : Wf (DB.RPush c k vs now s).store := by
  unfold DB.RPush
  split
  · exact hs
  split
  · exact hs
  rename_i hvals
  have hv : vs ≠ [] := ne_nil_of_isEmpty_false vs hvals
  split
  · rename_i e he
    split
    · exact wf_ainsert _ k _ (wf_aerase s k hs) (wfEntry_list _ _ hv)
    split
    · exact hs
    rename_i htype
    split
    · rename_i l hl
      refine wf_ainsert s k _ hs ?_
      rw [not_not.mp htype]
      refine wfEntry_list _ _ ?_
      intro h
      exact hv (List.append_eq_nil.mp h).2
    · exact hs
  · exact wf_ainsert s k _ hs (wfEntry_list _ _ hv)

theorem wf_lpop (c : Bool) (k : String) (now : Nat) (s : Store) (hs : Wf s) :
    Wf (DB.LPop c k now s).store := by
  unfold DB.LPop
  split
  · exact hs
  split
  · exact hs
  rename_i e he
  split
  · exact hs
  split
  · exact hs
  rename_i htype
  split
  · exact hs
  · rename_i v rest hvl
    split
    · exact wf_aerase s k hs
    · rename_i hrest
      refine wf_ainsert s k _ hs ?_
      rw [not_not.mp htype]
      exact wfEntry_list _ _ (ne_nil_of_isEmpty_false rest hrest)
  · exact hs

theorem wf_rpop (c : Bool) (k : String) (now : Nat) (s : Store) (hs : Wf s) :
    Wf (DB.RPop c k now s).store := by
  unfold DB.RPop
  split
  · exact hs
  split
  · exact hs
  rename_i e he
  split
  · exact hs
  split
  · exact hs
  rename_i htype
  split
  · rename_i l hl
    split
    · exact hs
    · rename_i v hlast
      split
      · exact wf_aerase s k hs
      · rename_i hrest
        refine wf_ainsert s k _ hs ?_
        rw [not_not.mp htype]
        exact wfEntry_list _ _ (ne_nil_of_isEmpty_false l.dropLast hrest)
  · exact hs

theorem wf_hset (c : Bool) (k f : String) (v : Value) (ttl : Int)
    (now : Nat) (s : Store) (r : OpResult Unit) (hs : Wf s)
    (heq : DB.HSet c k f v ttl now s = some r) : Wf r.store := by
  unfold DB.HSet at heq
  dsimp only at heq
  repeat' split at heq
  all_goals try cases heq
  all_goals first
    | exact hs
    | exact wf_ainsert s k _ hs (wfEntry_hash _ _ (ainsert_ne_nil _ f v))
    | exact wf_ainsert _ k _ (wf_aerase s k hs)
        (wfEntry_hash _ _ (ainsert_ne_nil _ f v))

theorem wf_hdel (c : Bool) (k f : String) (now : Nat) (s : Store)
    (r : OpResult Unit) (hs : Wf s)
    (heq : DB.HDel c k f now s = some r) : Wf r.store := by
  unfold DB.HDel at heq
  split at heq
  · cases heq; exact hs
  split at heq
  · cases heq; exact hs
  rename_i e he
  split at heq
  · cases heq; exact hs
  split at heq
  · cases heq; exact hs
  rename_i htype
  split at heq
  · rename_i h hv
    dsimp only at heq
    split at heq
    · cases heq; exact wf_aerase s k hs
    · rename_i hne
      cases heq
      refine wf_ainsert s k _ hs ?_
      rw [not_not.mp htype]
      exact wfEntry_hash _ _ (ne_nil_of_isEmpty_false (aerase h f) hne)
  · cases heq

theorem wf_expire (c : Bool) (k : String) (ttl : Int) (now : Nat)
    (s : Store) (hs : Wf s) : Wf (DB.Expire c k ttl now s).store := by
  unfold DB.Expire
  split
  · exact hs
  split
  · exact hs
  split
  · exact hs
  rename_i e he
  split
  · exact hs
  · exact wf_ainsert s k _ hs ⟨(hs k e he).1, (hs k e he).2⟩

theorem wf_persist (c : Bool) (k : String) (now : Nat) (s : Store)
    (hs : Wf s) : Wf (DB.Persist c k now s).store := by
  unfold DB.Persist
  split
  · exact hs
  split
  · exact hs
  rename_i e he
  split
  · exact hs
  split
  · exact hs
  · exact wf_ainsert s k _ hs ⟨(hs k e he).1, (hs k e he).2⟩

theorem wf_delete (c : Bool) (k : String) (s : Store) (hs : Wf s) :
    Wf (DB.Delete c k s).store := by
  unfold DB.Delete
  repeat' split
  all_goals first
    | exact hs
    | exact wf_aerase s k hs

theorem wf_dropAll (c : Bool) (s : Store) (hs : Wf s) :
    Wf (DB.DropAll c s).store := by
  unfold DB.DropAll
  split
  · exact hs
  · exact wf_nil

theorem wf_rename (c : Bool) (ko kn : String) (now : Nat) (s : Store)
    (hs : Wf s) : Wf (DB.Rename c ko kn now s).store := by
  unfold DB.Rename
  split
  · exact hs
  split
  · exact hs
  split
  · exact hs
  split
  · exact hs
  rename_i e he
  split
  · exact hs
  split
  · exact hs
  · exact wf_aerase _ ko (wf_ainsert s kn e hs (hs ko e he))

theorem wf_reap (k : String) (now : Nat) (s : Store) (hs : Wf s) :
    Wf (DB.reapKey k now s) := by
  unfold DB.reapKey
  repeat' split
  all_goals first
    | exact hs
    | exact wf_aerase s k hs

/-- Every public mutation preserves the no-empty-container invariant. -/
theorem wf_step {s s' : Store} (hs : Wf s) (hstep : Step s s') : Wf s' := by
  cases hstep <;>
    first
      | exact wf_setInternal _ _ _ _ _ _ _ _ hs
      | exact wf_setCAS _ _ _ _ _ _ _ _ hs (by assumption)
      | exact wf_getSet _ _ _ _ _ _ hs
      | exact wf_incr _ _ _ _ hs
      | exact wf_decr _ _ _ _ hs
      | exact wf_incrBy _ _ _ _ _ hs
      | exact wf_decrBy _ _ _ _ _ hs
      | exact wf_get _ _ _ _ hs
      | exact wf_lpush _ _ _ _ _ hs
      | exact wf_rpush _ _ _ _ _ hs
      | exact wf_lpop _ _ _ _ hs
      | exact wf_rpop _ _ _ _ hs
      | exact wf_hset _ _ _ _ _ _ _ _ hs (by assumption)
      | exact wf_hdel _ _ _ _ _ _ hs (by assumption)
      | exact wf_expire _ _ _ _ _ hs
      | exact wf_persist _ _ _ _ hs
      | exact wf_delete _ _ _ hs
      | exact wf_dropAll _ _ hs
      | exact wf_rename _ _ _ _ _ hs
      | exact wf_reap _ _ _ hs

/-- Every reachable keyspace satisfies the invariant. -/
theorem wf_reachable {s : Store} (h : Reachable s) : Wf s := by
  induction h with
  | refl => exact wf_nil
  | tail _hsteps hstep ih => exact wf_step ih hstep

/-- Claim C4: in every keyspace reachable by the public store operations no
key holds a LIST or HASH entry with an empty container; and when `LPop` or
`RPop` removes the last remaining element, or `HDel` removes the last
remaining field, the key is deleted entirely, so `Exists` on that key
subsequently returns `false`. -/
theorem claimC4_no_empty_containers :
    (∀ s, Reachable s → ∀ k e, alookup s k = some e →
       (e.type = .dList → ∃ l, e.value = .vList l ∧ l ≠ []) ∧
       (e.type = .dHash → ∃ h, e.value = .vHash h ∧ h ≠ [])) ∧
    (∀ s now k e v, alookup s k = some e → isExpired e now = false →
       e.type = .dList → e.value = .vList [v] →
       (DB.LPop false k now s).ret = .ok v ∧
       (DB.LPop false k now s).store = aerase s k ∧
       (DB.Exists false k now (DB.LPop false k now s).store).ret = .ok false) ∧
    (∀ s now k e v, alookup s k = some e → isExpired e now = false →
       e.type = .dList → e.value = .vList [v] →
       (DB.RPop false k now s).ret = .ok v ∧
       (DB.RPop false k now s).store = aerase s k ∧
       (DB.Exists false k now (DB.RPop false k now s).store).ret = .ok false) ∧
    (∀ s now k e f v, alookup s k = some e → isExpired e now = false →
       e.type = .dHash → e.value = .vHash [(f, v)] →
       DB.HDel false k f now s = some ⟨.ok (), aerase s k, []⟩ ∧
       (DB.Exists false k now (aerase s k)).ret = .ok false) := by
  refine ⟨?_, ?_, ?_, ?_⟩
  · intro s hr k e he
    exact wf_reachable hr k e he
  · intro s now k e v he hlive ht hv
    refine ⟨?_, ?_, ?_⟩ <;>
      simp [DB.LPop, DB.Exists, he, hlive, ht, hv, alookup_aerase]
  · intro s now k e v he hlive ht hv
    refine ⟨?_, ?_, ?_⟩ <;>
      simp [DB.RPop, DB.Exists, he, hlive, ht, hv, alookup_aerase]
  · intro s now k e f v he hlive ht hv
    refine ⟨?_, ?_⟩ <;>
      simp [DB.HDel, DB.Exists, he, hlive, ht, hv, aerase, alookup_aerase]

/-- The reachable keyspace used by the C4 witness: `LPush("L", 7)` applied
to the empty store. -/
def c4store : Store := (DB.LPush false "L" [.vInt 7] 0 []).store

/-- A second keyspace for the C4 witness: a one-field hash at "H". -/
def c4hash : Store := [("H", ⟨.vHash [("f", .vInt 1)], .dHash, none⟩)]

/-- Witness for `claimC4_no_empty_containers`: `c4store` is reachable and
satisfies the invariant; popping the singleton list at "L" and deleting
the last hash field at "H" delete the keys and make `Exists` false. -/
theorem claimC4_witness :
    Reachable c4store ∧
    (∀ k e, alookup c4store k = some e →
       (e.type = .dList → ∃ l, e.value = .vList l ∧ l ≠ []) ∧
       (e.type = .dHash → ∃ h, e.value = .vHash h ∧ h ≠ [])) ∧
    ((DB.LPop false "L" 0 c4store).ret = .ok (.vInt 7) ∧
     (DB.LPop false "L" 0 c4store).store = aerase c4store "L" ∧
     (DB.Exists false "L" 0 (DB.LPop false "L" 0 c4store).store).ret
        = .ok false) ∧
    ((DB.RPop false "L" 0 c4store).ret = .ok (.vInt 7) ∧
     (DB.RPop false "L" 0 c4store).store = aerase c4store "L" ∧
     (DB.Exists false "L" 0 (DB.RPop false "L" 0 c4store).store).ret
        = .ok false) ∧
    (DB.HDel false "H" "f" 0 c4hash = some ⟨.ok (), aerase c4hash "H", []⟩ ∧
     (DB.Exists false "H" 0 (aerase c4hash "H")).ret = .ok false) := by
  have hreach : Reachable c4store :=
    Relation.ReflTransGen.single (Step.lpush false "L" [.vInt 7] 0 [])
  refine ⟨hreach,
    claimC4_no_empty_containers.1 c4store hreach,
    claimC4_no_empty_containers.2.1 c4store 0 "L"
      ⟨.vList [.vInt 7], .dList, none⟩ (.vInt 7) rfl rfl rfl rfl,
    claimC4_no_empty_containers.2.2.1 c4store 0 "L"
      ⟨.vList [.vInt 7], .dList, none⟩ (.vInt 7) rfl rfl rfl rfl,
    claimC4_no_empty_containers.2.2.2 c4hash 0 "H"
      ⟨.vHash [("f", .vInt 1)], .dHash, none⟩ "f" (.vInt 1) rfl rfl rfl rfl⟩

end Hermes
